import Mathlib

/-!
Verification of the sqlite-orm record mapper (src/fields.py, src/orm.py).

The embedding models the schema-to-SQL compilation layer: a registered model
is a table name plus an ordered field directory (Python dict insertion order
is modelled by an association list), values are the Python scalars the ORM
renders with str(), and the SQL engine is an external collaborator modelled
as a function from a query string to either a row list or an error.  The
boolean attached to the result of each connection-opening operation records
whether every opened connection is closed again before the operation
returns (Python try/finally ⇒ always true; absence of it ⇒ false on the
failure path).
-/

namespace SqliteOrm

/-- Field as declared in fields.py: a type tag plus the mutable primary-key
flag set by the PrimaryKey decorator (absent attribute modelled as false). -/
structure Field where
  field_type : String
  primary_key : Bool
deriving DecidableEq, Repr

/-- Field catalog variant INTEGER (fields.py). -/
def Field.INTEGER : Field := ⟨"INTEGER", false⟩

/-- Field catalog variant FLOAT, whose field_type is REAL (fields.py). -/
def Field.FLOAT : Field := ⟨"REAL", false⟩

/-- Field catalog variant TEXT (fields.py). -/
def Field.TEXT : Field := ⟨"TEXT", false⟩

/-- PrimaryKey decorator (orm.py): sets the primary_key flag. -/
def PrimaryKey (f : Field) : Field := { f with primary_key := true }

/-- Scalar value handed to the ORM; the ORM only ever renders it through
Python str(), which for these variants is decimal notation or the string
itself. -/
inductive Value where
  | intV : Int → Value
  | strV : String → Value
deriving DecidableEq, Repr

/-- Python str() as used inside the ORM's f-strings. -/
def pyStr : Value → String
  | .intV n => toString n
  | .strV s => s

/-- Registered record type: table name and the ordered field directory built
by BaseModel.__init_subclass__ from the class dict (insertion order). -/
structure Model where
  table_name : String
  fields : List (String × Field)
deriving DecidableEq, Repr

/-- Keys of the field directory, in declaration order (cls._fields.keys()). -/
def fieldNames (m : Model) : List String := m.fields.map Prod.fst

/-- cls._primary_key: the first field whose primary_key flag is set, if any
(orm.py line 78, next(...) with default None). -/
def primaryKey (m : Model) : Option String :=
  (m.fields.find? (fun kv => kv.2.primary_key)).map Prod.fst

/-- Record Instance: mapping from field name to stored value, modelled as an
association list in field-directory key order. -/
abbrev Record := List (String × Value)

/-- Python record[column]: some value when the column is present in the
record, none where Python raises KeyError. -/
def recVal (r : Record) (c : String) : Option Value :=
  (r.find? (fun kv => kv.1 == c)).map Prod.snd

/-- Record holding a stored value for every declared field, as every record
decoded from a full-arity row does; Python's record[column] never raises on
such a record. -/
def hasAllFields (m : Model) (r : Record) : Bool :=
  m.fields.all (fun kv => (recVal r kv.1).isSome)

/-- BaseModel._to_dict (orm.py line 92): dict comprehension over
zip(cls._fields.keys(), row); zip stops at the shorter sequence. -/
def toDict (m : Model) (row : List Value) : Record :=
  (fieldNames m).zip row

/-- External SQL engine: a query string either yields raw positional rows or
raises (modelled as an error string). -/
abbrev Engine := String → Except String (List (List Value))

/-- BaseModel.execute (orm.py lines 120-139): connect, run one statement,
commit, with cursor/connection closed in a finally block.  The boolean is
true when no connection is left open on return: the finally block makes it
true on both branches. -/
def execute (e : Engine) (q : String) : Except String Unit × Bool :=
  match e q with
  | .ok _ => (.ok (), true)
  | .error err => (.error err, true)

/-- Query text issued by get_all (orm.py line 252). -/
def selectAllQuery (m : Model) : String := "SELECT * FROM " ++ m.table_name

/-- BaseModel.get_all (orm.py lines 238-259): select every row, decode each
positionally; cursor and connection closed in a finally block (boolean true
on both branches). -/
def get_all (m : Model) (e : Engine) : Except String (List Record) × Bool :=
  match e (selectAllQuery m) with
  | .ok rows => (.ok (rows.map (toDict m)), true)
  | .error err => (.error err, true)

/-- BaseModel.get (orm.py lines 221-236): fetch all rows, keep those for
which the predicate returns true. -/
def get (m : Model) (e : Engine) (p : Record → Bool) : Except String (List Record) :=
  match (get_all m e).1 with
  | .ok records => .ok (records.filter p)
  | .error err => .error err

/-- BaseModel.run_query (orm.py lines 296-317): execute a raw query and
decode every row.  Unlike execute/get_all/get_by_column there is no
try/finally, so when the statement raises, the close calls are skipped and
the connection is left open: the boolean is false on the failure path. -/
def run_query (m : Model) (e : Engine) (q : String) : Except String (List Record) × Bool :=
  match e q with
  | .ok rows => (.ok (rows.map (toDict m)), true)
  | .error err => (.error err, false)

/-- Query text compiled by get_by_column (orm.py line 279). -/
def getByColumnQuery (m : Model) (c cond : String) : String :=
  "SELECT * FROM " ++ m.table_name ++ " WHERE " ++ c ++ " " ++ cond

/-- BaseModel.get_by_column (orm.py lines 261-294): unknown columns are
rejected with a ValueError before any connection is opened; otherwise the
compiled query runs with cursor/connection closed in a finally block.  The
components are (result, no-connection-left-open flag, queries issued). -/
def get_by_column (m : Model) (e : Engine) (c cond : String) :
    Except String (List Record) × Bool × List String :=
  if c ∈ fieldNames m then
    match e (getByColumnQuery m c cond) with
    | .ok rows => (.ok (rows.map (toDict m)), true, [getByColumnQuery m c cond])
    | .error err => (.error err, true, [getByColumnQuery m c cond])
  else
    (.error ("Column with name \x27" ++ c ++ "\x27 does not exist"), true, [])

/-- Failure raised by BaseModel.insert, carrying the field names interpolated
into the ValueError message (orm.py lines 175 and 178). -/
inductive InsertErr where
  | extraFields : List String → InsertErr
  | missingFields : List String → InsertErr
deriving DecidableEq, Repr

/-- Statement compiled by insert on the success branch (orm.py line 169):
column list and value list both iterate the caller's mapping; every value is
str()-ed and wrapped in double quotes. -/
def insertQuery (m : Model) (kwargs : List (String × Value)) : String :=
  "INSERT INTO " ++ m.table_name ++ " (" ++
    String.intercalate ", " (kwargs.map Prod.fst) ++ ") VALUES (" ++
    String.intercalate ", " (kwargs.map (fun kv => "\"" ++ pyStr kv.2 ++ "\"")) ++ ")"

/-- Python dict-view equality kwargs.keys() == cls._fields.keys(): equality
of the key sets, irrespective of order. -/
def sameKeySet (a b : List String) : Bool :=
  a.all (fun x => b.contains x) && b.all (fun x => a.contains x)

/-- BaseModel.insert (orm.py lines 156-178): if the key sets are equal,
compile and issue the INSERT; elif the supplied mapping has more entries than
the field directory, raise "extra fields" naming set(kwargs)-set(fields);
else raise "missing fields" naming set(fields)-set(kwargs).  Returns the
compiled statement on success. -/
def insert (m : Model) (kwargs : List (String × Value)) : Except InsertErr String :=
  if sameKeySet (kwargs.map Prod.fst) (fieldNames m) then
    .ok (insertQuery m kwargs)
  else if kwargs.length > m.fields.length then
    .error (.extraFields ((kwargs.map Prod.fst).filter (fun x => !((fieldNames m).contains x))))
  else
    .error (.missingFields ((fieldNames m).filter (fun x => !((kwargs.map Prod.fst).contains x))))

/-- SQL statements insert hands to execute: one on the success branch, none
when the ValueError is raised first. -/
def insertIssued (m : Model) (kwargs : List (String × Value)) : List String :=
  match insert m kwargs with
  | .ok q => [q]
  | .error _ => []

/-- Column fragment rendered by create_table (orm.py line 148): the inner
f-string interpolates the empty string, leaving a trailing space, when the
key is not the primary key. -/
def columnDef (m : Model) (kv : String × Field) : String :=
  kv.1 ++ " " ++ kv.2.field_type ++ " " ++
    (if primaryKey m = some kv.1 then "PRIMARY KEY" else "")

/-- DDL text compiled by create_table (orm.py lines 148-152): a triple-quoted
f-string whose literal newlines and indentation are part of the statement. -/
def createTableQuery (m : Model) : String :=
  "CREATE TABLE " ++ m.table_name ++ " (\n            " ++
    String.intercalate ", " (m.fields.map (columnDef m)) ++ "\n        )\n        "

/-- WHERE clause shared by delete and update (orm.py lines 193-194 and
212-213): the list comprehension renders column=='value' for every declared
field from record[column], raising KeyError (none) at the first declared
column missing from the record; on success the pieces are joined with AND. -/
def whereJoin (m : Model) (r : Record) : Option String :=
  (m.fields.mapM (fun kv =>
      (recVal r kv.1).map (fun v => kv.1 ++ "==\x27" ++ pyStr v ++ "\x27"))).map
    (String.intercalate " AND ")

/-- Pairs of column name and rendered stored value that the WHERE clause
interpolates, in declaration order; none when a declared column is missing
from the record. -/
def wherePairs (m : Model) (r : Record) : Option (List (String × String)) :=
  m.fields.mapM (fun kv => (recVal r kv.1).map (fun v => (kv.1, pyStr v)))

/-- Statement compiled by delete for one matching record (orm.py line 195);
none when the WHERE comprehension raises. -/
def deleteQuery (m : Model) (r : Record) : Option String :=
  (whereJoin m r).map (fun w => "DELETE FROM " ++ m.table_name ++ " WHERE " ++ w)

/-- Per-record compile-and-execute loop of delete and update: statements are
issued in order; when compilation of a record raises (none), the loop aborts
with the statements already issued kept and the flag false, matching
Python's non-atomic for-loop with an escaping KeyError. -/
def compileLoop (f : Record → Option String) : List Record → List String × Bool
  | [] => ([], true)
  | r :: rs =>
    match f r with
    | none => ([], false)
    | some q => (q :: (compileLoop f rs).1, (compileLoop f rs).2)

/-- BaseModel.delete (orm.py lines 180-196): fetch the matching records via
get, then per matching record compile one DELETE statement and hand it to
execute.  The result pairs the issued statements with a completion flag that
is false when the loop aborted on a record missing a declared column. -/
def delete (m : Model) (e : Engine) (p : Record → Bool) :
    Except String (List String × Bool) :=
  match get m e p with
  | .ok records => .ok (compileLoop (deleteQuery m) records)
  | .error err => .error err

/-- Python kwargs lookup with membership test, as in
`kwargs[column] if column in kwargs.keys() else ...` (orm.py line 214). -/
def lookupKw (kwargs : List (String × Value)) (c : String) : Option Value :=
  (kwargs.find? (fun kv => kv.1 == c)).map Prod.snd

/-- Value written by update's SET clause for one column: the caller-supplied
replacement if the column is a kwargs key, else record[column], which is
none (KeyError) when the record lacks the column (orm.py line 214). -/
def setValue (kwargs : List (String × Value)) (r : Record) (c : String) : Option Value :=
  match lookupKw kwargs c with
  | some v => some v
  | none => recVal r c

/-- SET clause compiled by update (orm.py lines 214-215): every declared
field in directory order rendered column='value', raising (none) at the
first declared column that is neither a kwargs key nor present in the
record. -/
def setJoin (m : Model) (kwargs : List (String × Value)) (r : Record) : Option String :=
  (m.fields.mapM (fun kv =>
      (setValue kwargs r kv.1).map (fun v => kv.1 ++ "=\x27" ++ pyStr v ++ "\x27"))).map
    (String.intercalate ", ")

/-- Pairs of column name and rendered value that the SET clause writes, in
declaration order; none when the clause raises. -/
def setPairs (m : Model) (kwargs : List (String × Value)) (r : Record) :
    Option (List (String × String)) :=
  m.fields.mapM (fun kv => (setValue kwargs r kv.1).map (fun v => (kv.1, pyStr v)))

/-- Statement compiled by update for one matching record (orm.py line 217);
none when either comprehension raises. -/
def updateQuery (m : Model) (kwargs : List (String × Value)) (r : Record) :
    Option String :=
  match whereJoin m r, setJoin m kwargs r with
  | some w, some s => some ("UPDATE " ++ m.table_name ++ " SET " ++ s ++ " WHERE " ++ w)
  | _, _ => none

/-- BaseModel.update (orm.py lines 198-218): fetch the matching records via
get, then per matching record compile one UPDATE statement and hand it to
execute.  The result pairs the issued statements with a completion flag that
is false when the loop aborted on a record missing a declared column. -/
def update (m : Model) (e : Engine) (p : Record → Bool)
    (kwargs : List (String × Value)) : Except String (List String × Bool) :=
  match get m e p with
  | .ok records => .ok (compileLoop (updateQuery m kwargs) records)
  | .error err => .error err

/-- Row the engine stores after running update's compiled SET clause on a
matching record: every declared field set to the value the clause wrote;
fields whose lookup raised are absent (the clause is only ever executed when
none did). -/
def updatedRecord (m : Model) (kwargs : List (String × Value)) (r : Record) : Record :=
  m.fields.filterMap (fun kv => (setValue kwargs r kv.1).map (fun v => (kv.1, v)))

/-- Engine-side matching of delete's compiled WHERE clause: a stored row
satisfies column=='v' for every declared column exactly when its rendered
value equals the rendered value of the targeted record in each column. -/
def rowEq (m : Model) (r s : Record) : Bool :=
  m.fields.all (fun kv => (recVal r kv.1).map pyStr == (recVal s kv.1).map pyStr)

/-- Effect of one compiled DELETE statement on the stored table: every row
matching the full-row-equality WHERE clause is removed. -/
def applyDelete (m : Model) (tbl : List Record) (target : Record) : List Record :=
  tbl.filter (fun r => !(rowEq m r target))

/-- Effect of the sequence of DELETE statements delete issues, applied to the
stored table in order. -/
def runDeletes (m : Model) (tbl : List Record) (targets : List Record) : List Record :=
  targets.foldl (applyDelete m) tbl

/-! ### Spec-side templates

Renderings written from the spec's wording of the generated SQL surface,
compared against the compilers above. -/

/-- Column text as the amended DDL claim words it: name, type, then either
a PRIMARY KEY constraint for the primary-key-designated column or a trailing
space left by the empty interpolation. -/
def specColumnText (pk : Option String) (kv : String × Field) : String :=
  kv.1 ++ " " ++ kv.2.field_type ++ (if pk = some kv.1 then " PRIMARY KEY" else " ")

/-- CREATE TABLE statement layout as the amended DDL claim words it. -/
def specCreateTableText (t : String) (cols : List String) : String :=
  "CREATE TABLE " ++ t ++ " (\n            " ++ String.intercalate ", " cols ++
    "\n        )\n        "

/-- Insert statement template from the spec: column list, then every value
double-quoted, both comma-separated. -/
def specInsertText (t : String) (cols vals : List String) : String :=
  "INSERT INTO " ++ t ++ " (" ++ String.intercalate ", " cols ++ ") VALUES (" ++
    String.intercalate ", " (vals.map (fun v => "\"" ++ v ++ "\"")) ++ ")"

/-- Single equality conjunct of the delete/update WHERE template,
column=='value'. -/
def specWherePair (cv : String × String) : String :=
  cv.1 ++ "==\x27" ++ cv.2 ++ "\x27"

/-- Single assignment of the update SET template, column='value'. -/
def specSetPair (cv : String × String) : String :=
  cv.1 ++ "=\x27" ++ cv.2 ++ "\x27"

/-- Delete statement template from the spec: WHERE conjoins the given
(column, rendered value) pairs with AND. -/
def specDeleteText (t : String) (wheres : List (String × String)) : String :=
  "DELETE FROM " ++ t ++ " WHERE " ++
    String.intercalate " AND " (wheres.map specWherePair)

/-- Update statement template from the spec: SET lists the given assignments,
WHERE conjoins full-row equalities. -/
def specUpdateText (t : String) (sets wheres : List (String × String)) : String :=
  "UPDATE " ++ t ++ " SET " ++ String.intercalate ", " (sets.map specSetPair) ++
    " WHERE " ++ String.intercalate " AND " (wheres.map specWherePair)

/-- Select-by-column statement template from the spec: the condition is a
verbatim trailing fragment. -/
def specSelectByColumnText (t c cond : String) : String :=
  "SELECT * FROM " ++ t ++ " WHERE " ++ c ++ " " ++ cond

/-! ### Concrete fixtures used by witnesses and counterexamples -/

/-- Two-field model: table T with fields a, b (a flagged primary key). -/
def Mpk : Model := ⟨"T", [("a", PrimaryKey Field.INTEGER), ("b", Field.TEXT)]⟩

/-- Two-field all-text model named T, no primary key. -/
def Mab : Model := ⟨"T", [("a", Field.TEXT), ("b", Field.TEXT)]⟩

/-- Three-field all-text model named T. -/
def Mabc : Model := ⟨"T", [("a", Field.TEXT), ("b", Field.TEXT), ("c", Field.TEXT)]⟩

/-- Supplied insert mapping with keys a, c, d: more entries than Mab's two
fields but not a superset of them (b is absent). -/
def Kacd : List (String × Value) :=
  [("a", Value.strV "1"), ("c", Value.strV "2"), ("d", Value.strV "3")]

/-- Supplied insert mapping for Mpk whose iteration order (b before a)
differs from the declaration order. -/
def Kba : List (String × Value) := [("b", Value.strV "x"), ("a", Value.intV 1)]

/-- Update mapping replacing only field b. -/
def Kb : List (String × Value) := [("b", Value.strV "new")]

/-- Engine whose full-table scan of T yields one row of two columns. -/
def shortRowEngine : Engine := fun q =>
  if q = "SELECT * FROM T" then Except.ok [[Value.strV "x", Value.strV "y"]]
  else Except.error "unreachable"

/-- Engine on which every statement raises. -/
def failEngine : Engine := fun _ => Except.error "malformed SQL"

/-- Engine whose full-table scan of T yields two field-wise identical rows. -/
def twoRowEngine : Engine := fun q =>
  if q = "SELECT * FROM T" then
    Except.ok [[Value.intV 1, Value.strV "x"], [Value.intV 1, Value.strV "x"]]
  else Except.error "no such table"

/-- Engine answering the select-by-column query on T for column a. -/
def condEngine : Engine := fun q =>
  if q = "SELECT * FROM T WHERE a = 1" then Except.ok [[Value.intV 1, Value.strV "x"]]
  else Except.error "no such table"

/-- Engine over an empty table: every query yields zero rows. -/
def emptyEngine : Engine := fun _ => Except.ok []

/-- Record decoded from twoRowEngine's rows under Mpk. -/
def rXa : Record := [("a", Value.intV 1), ("b", Value.strV "x")]

/-- Predicate matching every record. -/
def pTrue : Record → Bool := fun _ => true

/-! ### Helper lemmas -/

theorem sameKeySet_iff (a b : List String) :
    sameKeySet a b = true ↔ ∀ x, x ∈ a ↔ x ∈ b := by
  simp only [sameKeySet, Bool.and_eq_true, List.all_eq_true, List.elem_iff]
  constructor
  · rintro ⟨h1, h2⟩ x
    exact ⟨fun hx => h1 x hx, fun hx => h2 x hx⟩
  · intro h
    exact ⟨fun x hx => (h x).mp hx, fun x hx => (h x).mpr hx⟩

theorem map_fst_zip_take (a : List String) (b : List Value) :
    (a.zip b).map Prod.fst = a.take b.length := by
  induction a generalizing b with
  | nil => simp
  | cons x xs ih =>
    cases b with
    | nil => simp
    | cons y ys => simp [List.zip_cons_cons, ih]

theorem map_snd_zip_take (a : List String) (b : List Value) :
    (a.zip b).map Prod.snd = b.take a.length := by
  induction a generalizing b with
  | nil => simp
  | cons x xs ih =>
    cases b with
    | nil => simp
    | cons y ys => simp [List.zip_cons_cons, ih]

theorem mapM_map_comm {α β γ : Type} (f : α → Option β) (g : β → γ) (l : List α) :
    l.mapM (fun a => (f a).map g) = (l.mapM f).map (List.map g) := by
  induction l with
  | nil => rfl
  | cons a t ih =>
    rw [List.mapM_cons, List.mapM_cons, ih]
    cases f a with
    | none => rfl
    | some b =>
      cases t.mapM f with
      | none => rfl
      | some bs => rfl

theorem mapM_isSome {α β : Type} (f : α → Option β) (l : List α)
    (h : ∀ a ∈ l, (f a).isSome = true) : (l.mapM f).isSome = true := by
  induction l with
  | nil => rfl
  | cons a t ih =>
    rw [List.mapM_cons]
    obtain ⟨b, hb⟩ := Option.isSome_iff_exists.mp (h a (List.mem_cons_self a t))
    obtain ⟨bs, hbs⟩ :=
      Option.isSome_iff_exists.mp (ih (fun x hx => h x (List.mem_cons_of_mem a hx)))
    rw [hb, hbs]
    rfl

theorem length_of_mapM {α β : Type} (f : α → Option β) (l : List α) (l2 : List β)
    (h : l.mapM f = some l2) : l2.length = l.length := by
  induction l generalizing l2 with
  | nil =>
    rw [List.mapM_nil] at h
    simp only [pure, Option.some.injEq] at h
    simp [← h]
  | cons a t ih =>
    rw [List.mapM_cons] at h
    cases hfa : f a with
    | none => rw [hfa] at h; simp at h
    | some b =>
      rw [hfa] at h
      cases hmt : t.mapM f with
      | none => rw [hmt] at h; simp at h
      | some bs =>
        rw [hmt] at h
        simp only [Option.bind_eq_bind, Option.some_bind, pure, Option.some.injEq] at h
        rw [← h]
        simp [ih bs hmt]

theorem compileLoop_eq_mapM (f : Record → Option String) (records : List Record)
    (qs : List String) (h : records.mapM f = some qs) :
    compileLoop f records = (qs, true) := by
  induction records generalizing qs with
  | nil =>
    rw [List.mapM_nil] at h
    simp only [pure, Option.some.injEq] at h
    simp [compileLoop, ← h]
  | cons r t ih =>
    rw [List.mapM_cons] at h
    cases hfr : f r with
    | none => rw [hfr] at h; simp at h
    | some q =>
      rw [hfr] at h
      cases hmt : t.mapM f with
      | none => rw [hmt] at h; simp at h
      | some qs2 =>
        rw [hmt] at h
        simp only [Option.bind_eq_bind, Option.some_bind, pure, Option.some.injEq] at h
        rw [← h]
        simp [compileLoop, hfr, ih qs2 hmt]

theorem pairs_mapM_spec (g : String → Option Value) (l : List (String × Field))
    (ps : List (String × String))
    (h : l.mapM (fun kv => (g kv.1).map (fun v => (kv.1, pyStr v))) = some ps) :
    ps.map Prod.fst = l.map Prod.fst ∧
    ∀ cv ∈ ps, (g cv.1).map pyStr = some cv.2 := by
  induction l generalizing ps with
  | nil =>
    rw [List.mapM_nil] at h
    simp only [pure, Option.some.injEq] at h
    simp [← h]
  | cons kv t ih =>
    rw [List.mapM_cons] at h
    cases hg : g kv.1 with
    | none => rw [hg] at h; simp at h
    | some v =>
      rw [hg] at h
      cases hmt : t.mapM (fun kv => (g kv.1).map (fun v => (kv.1, pyStr v))) with
      | none => rw [hmt] at h; simp at h
      | some ps2 =>
        rw [hmt] at h
        have h3 : (kv.1, pyStr v) :: ps2 = ps := Option.some.inj h
        obtain ⟨h1, h2⟩ := ih ps2 hmt
        rw [← h3]
        refine ⟨by simp [h1], ?_⟩
        intro cv hcv
        rcases List.mem_cons.mp hcv with rfl | hcv2
        · simp [hg]
        · exact h2 cv hcv2

theorem whereJoin_eq (m : Model) (r : Record) :
    whereJoin m r = (wherePairs m r).map
      (fun ps => String.intercalate " AND " (ps.map specWherePair)) := by
  unfold whereJoin wherePairs
  have hfun : (fun kv : String × Field =>
      (recVal r kv.1).map (fun v => kv.1 ++ "==\x27" ++ pyStr v ++ "\x27")) =
      fun kv : String × Field =>
        ((recVal r kv.1).map (fun v => (kv.1, pyStr v))).map specWherePair := by
    funext kv
    cases recVal r kv.1 <;> rfl
  rw [hfun,
    mapM_map_comm (fun kv : String × Field => (recVal r kv.1).map (fun v => (kv.1, pyStr v)))
      specWherePair m.fields, Option.map_map]
  rfl

theorem setJoin_eq (m : Model) (kwargs : List (String × Value)) (r : Record) :
    setJoin m kwargs r = (setPairs m kwargs r).map
      (fun ss => String.intercalate ", " (ss.map specSetPair)) := by
  unfold setJoin setPairs
  have hfun : (fun kv : String × Field =>
      (setValue kwargs r kv.1).map (fun v => kv.1 ++ "=\x27" ++ pyStr v ++ "\x27")) =
      fun kv : String × Field =>
        ((setValue kwargs r kv.1).map (fun v => (kv.1, pyStr v))).map specSetPair := by
    funext kv
    cases setValue kwargs r kv.1 <;> rfl
  rw [hfun,
    mapM_map_comm
      (fun kv : String × Field => (setValue kwargs r kv.1).map (fun v => (kv.1, pyStr v)))
      specSetPair m.fields, Option.map_map]
  rfl

theorem whereJoin_isSome (m : Model) (r : Record) (h : hasAllFields m r = true) :
    (whereJoin m r).isSome = true := by
  unfold whereJoin
  have h2 : (m.fields.mapM (fun kv =>
      (recVal r kv.1).map (fun v => kv.1 ++ "==\x27" ++ pyStr v ++ "\x27"))).isSome = true := by
    refine mapM_isSome _ _ ?_
    intro kv hkv
    have h3 := List.all_eq_true.mp h kv hkv
    cases hrc : recVal r kv.1
    · rw [hrc] at h3; simp at h3
    · simp
  cases hm : m.fields.mapM (fun kv =>
      (recVal r kv.1).map (fun v => kv.1 ++ "==\x27" ++ pyStr v ++ "\x27"))
  · rw [hm] at h2; simp at h2
  · simp

theorem setValue_isSome (kwargs : List (String × Value)) (r : Record) (c : String)
    (h : (recVal r c).isSome = true) : (setValue kwargs r c).isSome = true := by
  unfold setValue
  cases hk : lookupKw kwargs c
  · simpa using h
  · rfl

theorem setJoin_isSome (m : Model) (kwargs : List (String × Value)) (r : Record)
    (h : hasAllFields m r = true) : (setJoin m kwargs r).isSome = true := by
  unfold setJoin
  have h2 : (m.fields.mapM (fun kv =>
      (setValue kwargs r kv.1).map (fun v => kv.1 ++ "=\x27" ++ pyStr v ++ "\x27"))).isSome
      = true := by
    refine mapM_isSome _ _ ?_
    intro kv hkv
    have h3 := setValue_isSome kwargs r kv.1 (List.all_eq_true.mp h kv hkv)
    cases hsv : setValue kwargs r kv.1
    · rw [hsv] at h3; simp at h3
    · simp
  cases hm : m.fields.mapM (fun kv =>
      (setValue kwargs r kv.1).map (fun v => kv.1 ++ "=\x27" ++ pyStr v ++ "\x27"))
  · rw [hm] at h2; simp at h2
  · simp

theorem deleteQuery_isSome (m : Model) (r : Record) (h : hasAllFields m r = true) :
    (deleteQuery m r).isSome = true := by
  unfold deleteQuery
  have h2 := whereJoin_isSome m r h
  cases hw : whereJoin m r
  · rw [hw] at h2; simp at h2
  · simp

theorem updateQuery_isSome (m : Model) (kwargs : List (String × Value)) (r : Record)
    (h : hasAllFields m r = true) : (updateQuery m kwargs r).isSome = true := by
  unfold updateQuery
  have h2 := whereJoin_isSome m r h
  have h3 := setJoin_isSome m kwargs r h
  cases hw : whereJoin m r
  · rw [hw] at h2; simp at h2
  · cases hs : setJoin m kwargs r
    · rw [hs] at h3; simp at h3
    · rfl

theorem find_filterMap_key (g : String → Option Value) (l : List (String × Field))
    (c : String) (hc : c ∈ l.map Prod.fst) :
    (l.filterMap (fun kv => (g kv.1).map (fun v => (kv.1, v)))).find?
      (fun kv => kv.1 == c) = (g c).map (fun v => (c, v)) := by
  induction l with
  | nil => simp at hc
  | cons kv t ih =>
    by_cases hkc : kv.1 = c
    · subst hkc
      cases hg : g kv.1 with
      | none =>
        rw [List.filterMap_cons_none (by simp [hg])]
        by_cases hct : kv.1 ∈ t.map Prod.fst
        · rw [ih hct, hg]
        · refine List.find?_eq_none.mpr ?_
          intro x hx
          obtain ⟨a, ha, hax⟩ := List.mem_filterMap.mp hx
          cases hga : g a.1 with
          | none =>
            rw [hga] at hax
            exact Option.noConfusion hax
          | some v =>
            rw [hga] at hax
            have hx1 : x = (a.1, v) := (Option.some.inj hax).symm
            intro hbeq
            have hxc : x.1 = kv.1 := eq_of_beq hbeq
            have hmem2 : a.1 ∈ t.map Prod.fst := List.mem_map_of_mem Prod.fst ha
            have hakv : a.1 = kv.1 := by
              rw [← hxc, hx1]
            exact hct (hakv ▸ hmem2)
      | some v =>
        have hfm : (kv :: t).filterMap (fun kv => (g kv.1).map (fun v => (kv.1, v)))
            = (kv.1, v) :: t.filterMap (fun kv => (g kv.1).map (fun v => (kv.1, v))) := by
          simp [List.filterMap_cons, hg]
        rw [hfm, List.find?_cons_of_pos _ (by simp)]
        rfl
    · have hc2 : c ∈ kv.1 :: t.map Prod.fst := by
        rw [List.map_cons] at hc
        exact hc
      have hct : c ∈ t.map Prod.fst := by
        rcases List.mem_cons.mp hc2 with h1 | h1
        · exact absurd h1.symm hkc
        · exact h1
      cases hg : g kv.1 with
      | none =>
        rw [List.filterMap_cons_none (by simp [hg])]
        exact ih hct
      | some v =>
        have hfm : (kv :: t).filterMap (fun kv => (g kv.1).map (fun v => (kv.1, v)))
            = (kv.1, v) :: t.filterMap (fun kv => (g kv.1).map (fun v => (kv.1, v))) := by
          simp [List.filterMap_cons, hg]
        rw [hfm, List.find?_cons_of_neg _ (by simpa using hkc)]
        exact ih hct

theorem recVal_updatedRecord (m : Model) (kwargs : List (String × Value))
    (r : Record) (c : String) (hc : c ∈ fieldNames m) :
    recVal (updatedRecord m kwargs r) c = setValue kwargs r c := by
  unfold recVal updatedRecord
  rw [find_filterMap_key (setValue kwargs r) m.fields c hc]
  cases setValue kwargs r c <;> rfl

theorem rowEq_refl (m : Model) (r : Record) : rowEq m r r = true := by
  simp [rowEq, List.all_eq_true]

theorem rowEq_symm (m : Model) (r s : Record) (h : rowEq m r s = true) :
    rowEq m s r = true := by
  simp only [rowEq, List.all_eq_true] at h ⊢
  intro kv hkv
  have := h kv hkv
  exact beq_iff_eq.mpr (beq_iff_eq.mp this).symm

theorem mem_of_mem_runDeletes (m : Model) (ts : List Record) (tbl : List Record)
    (r : Record) (h : r ∈ runDeletes m tbl ts) : r ∈ tbl := by
  induction ts generalizing tbl with
  | nil => simpa [runDeletes] using h
  | cons t ts ih =>
    have h2 : r ∈ applyDelete m tbl t := ih (applyDelete m tbl t) h
    exact List.mem_of_mem_filter h2

theorem not_mem_runDeletes (m : Model) (r t : Record) (hr : rowEq m r t = true) :
    ∀ (ts : List Record) (tbl : List Record), t ∈ ts → r ∉ runDeletes m tbl ts := by
  intro ts
  induction ts with
  | nil =>
    intro tbl ht
    simp at ht
  | cons a ts ih =>
    intro tbl ht hmem
    rcases List.mem_cons.mp ht with rfl | hts
    · have h2 : r ∈ applyDelete m tbl t :=
        mem_of_mem_runDeletes m ts (applyDelete m tbl t) r hmem
      have h3 := List.of_mem_filter h2
      simp [hr] at h3
    · exact ih (applyDelete m tbl a) hts hmem


theorem count_key_le_one (l : List (String × Field)) (hnd : (l.map Prod.fst).Nodup)
    (n : String) : (l.filter (fun kv => kv.1 == n)).length ≤ 1 := by
  induction l with
  | nil => simp
  | cons kv t ih =>
    rcases List.nodup_cons.mp hnd with ⟨hk, ht⟩
    by_cases h : kv.1 = n
    · subst h
      have hnone : t.filter (fun x => x.1 == kv.1) = [] := by
        refine List.filter_eq_nil_iff.mpr ?_
        intro x hx
        simp only [beq_eq_false_iff_ne, ne_eq, Bool.not_eq_true]
        intro hxe
        exact hk (hxe ▸ List.mem_map_of_mem Prod.fst hx)
      simp [List.filter_cons, hnone]
    · simpa [List.filter_cons, h] using ih ht

theorem columnDef_eq_spec (m : Model) (kv : String × Field) :
    columnDef m kv = specColumnText (primaryKey m) kv := by
  unfold columnDef specColumnText
  by_cases h : primaryKey m = some kv.1
  · simp only [h, if_pos rfl]
    rw [String.append_assoc]
    rfl
  · simp only [if_neg h]
    rw [String.append_empty]

/-! ### Claims -/

/-- Claim C2 counterexample: under the three-field model Mabc, the engine
returns a two-column row, yet get_all succeeds and produces a two-field
record instead of failing with a shape-mismatch error. -/
theorem decode_shape_cex :
    shortRowEngine (selectAllQuery Mabc) =
      Except.ok [[Value.strV "x", Value.strV "y"]] ∧
    Mabc.fields.length = 3 ∧
    (get_all Mabc shortRowEngine).1 =
      Except.ok [[("a", Value.strV "x"), ("b", Value.strV "y")]] :=
  ⟨rfl, rfl, rfl⟩

/-- Claim C2 (amended): a raw row whose column count differs from the number
of declared fields does NOT fail record reconstruction; get_all succeeds and
decodes every returned row by positional pairing truncated at the shorter of
the field directory and the row. -/
theorem decode_truncates (m : Model) (e : Engine) (rows : List (List Value))
    (h : e (selectAllQuery m) = Except.ok rows) :
    (get_all m e).1 = Except.ok (rows.map (toDict m)) ∧
    ∀ row ∈ rows, (toDict m row).length = min m.fields.length row.length := by
  constructor
  · unfold get_all
    rw [h]
  · intro row _
    unfold toDict
    rw [List.length_zip]
    simp [fieldNames]

/-- Witness for decode_truncates at the concrete short-row fixture. -/
theorem decode_truncates_w :
    (get_all Mabc shortRowEngine).1 =
      Except.ok ([[Value.strV "x", Value.strV "y"]].map (toDict Mabc)) ∧
    ∀ row ∈ [[Value.strV "x", Value.strV "y"]],
      (toDict Mabc row).length = min Mabc.fields.length row.length :=
  decode_truncates Mabc shortRowEngine [[Value.strV "x", Value.strV "y"]] rfl

/-- Claim C3: execute, get_all and get_by_column release the connection on
the failure path (finally blocks), but run_query does not: on a raising
statement its close calls are skipped and the connection leaks, refuting the
guaranteed-release claim for run_query. -/
theorem run_query_leaks_connection :
    (run_query Mabc failEngine "SELECT * FROM T").2 = false ∧
    (execute failEngine "SELECT * FROM T").2 = true ∧
    (get_all Mabc failEngine).2 = true ∧
    (get_by_column Mabc failEngine "a" "= 1").2.1 = true :=
  ⟨rfl, rfl, rfl, rfl⟩

/-- Claim C4 counterexample: for the model Mpk the compiled DDL is not the
claimed bit-exact single-line text; the actual statement carries the
f-string's newlines and indentation and a trailing space after the
non-primary-key column. -/
theorem create_table_bit_exact_cex :
    createTableQuery Mpk ≠ "CREATE TABLE T (a INTEGER PRIMARY KEY, b TEXT)" ∧
    createTableQuery Mpk =
      "CREATE TABLE T (\n            a INTEGER PRIMARY KEY, b TEXT \n        )\n        " :=
  ⟨by decide, rfl⟩

/-- Claim C4 (amended): create_table compiles CREATE TABLE followed by the
table name and a parenthesised column list in declaration order, where the
primary-key-designated column is rendered name-type-PRIMARY KEY and every
other column name-type with a trailing space; the statement embeds the
source f-string's newline/indentation layout, and (for distinct field names)
exactly one column carries the PRIMARY KEY constraint when a primary key is
designated. -/
theorem create_table_layout (m : Model) (hnd : (fieldNames m).Nodup) :
    createTableQuery m =
      specCreateTableText m.table_name
        (m.fields.map (specColumnText (primaryKey m))) ∧
    (∀ kv ∈ m.fields, primaryKey m = some kv.1 →
      specColumnText (primaryKey m) kv =
        kv.1 ++ " " ++ kv.2.field_type ++ " PRIMARY KEY") ∧
    (∀ kv ∈ m.fields, primaryKey m ≠ some kv.1 →
      specColumnText (primaryKey m) kv = kv.1 ++ " " ++ kv.2.field_type ++ " ") ∧
    (∀ n, primaryKey m = some n →
      (m.fields.filter (fun kv => kv.1 == n)).length = 1) := by
  refine ⟨?_, ?_, ?_, ?_⟩
  · unfold createTableQuery specCreateTableText
    rw [show columnDef m = specColumnText (primaryKey m) from funext (columnDef_eq_spec m)]
  · intro kv _ hpk
    simp [specColumnText, hpk]
  · intro kv _ hpk
    simp [specColumnText, hpk]
  · intro n hpk
    refine Nat.le_antisymm (count_key_le_one m.fields hnd n) ?_
    obtain ⟨kv0, hfind⟩ := Option.map_eq_some'.mp hpk
    have hmem : kv0 ∈ m.fields := List.mem_of_find?_eq_some hfind.1
    have hkey : kv0.1 == n := by
      simp [hfind.2]
    have : kv0 ∈ m.fields.filter (fun kv => kv.1 == n) :=
      List.mem_filter.mpr ⟨hmem, hkey⟩
    exact List.length_pos.mpr (List.ne_nil_of_mem this)

/-- Witness for create_table_layout at the concrete model Mpk. -/
theorem create_table_layout_w :
    createTableQuery Mpk =
      specCreateTableText Mpk.table_name
        (Mpk.fields.map (specColumnText (primaryKey Mpk))) ∧
    (∀ kv ∈ Mpk.fields, primaryKey Mpk = some kv.1 →
      specColumnText (primaryKey Mpk) kv =
        kv.1 ++ " " ++ kv.2.field_type ++ " PRIMARY KEY") ∧
    (∀ kv ∈ Mpk.fields, primaryKey Mpk ≠ some kv.1 →
      specColumnText (primaryKey Mpk) kv = kv.1 ++ " " ++ kv.2.field_type ++ " ") ∧
    (∀ n, primaryKey Mpk = some n →
      (Mpk.fields.filter (fun kv => kv.1 == n)).length = 1) :=
  create_table_layout Mpk (by decide)

/-- Claim C10: the row-to-record decoder pairs field names with row values
positionally and stops at the shorter side without failing: its keys are the
first row-length field names and its values the first arity-many row values;
a longer row therefore yields exactly the declared fields with the trailing
values dropped, and a shorter row yields only the first len(row) fields. -/
theorem to_dict_truncation (m : Model) (row : List Value) :
    (toDict m row).map Prod.fst = (fieldNames m).take row.length ∧
    (toDict m row).map Prod.snd = row.take m.fields.length ∧
    (toDict m row).length = min m.fields.length row.length ∧
    (m.fields.length ≤ row.length → (toDict m row).map Prod.fst = fieldNames m) ∧
    (row.length ≤ m.fields.length → (toDict m row).map Prod.snd = row) := by
  have hlen : (fieldNames m).length = m.fields.length := List.length_map _ _
  refine ⟨map_fst_zip_take _ _, ?_, ?_, ?_, ?_⟩
  · rw [toDict, map_snd_zip_take, hlen]
  · rw [toDict, List.length_zip, hlen]
  · intro h
    rw [toDict, map_fst_zip_take]
    exact List.take_of_length_le (hlen ▸ h)
  · intro h
    rw [toDict, map_snd_zip_take, hlen]
    exact List.take_of_length_le h

/-- Witness for to_dict_truncation: a two-value row against the three-field
model keeps only the first two fields. -/
theorem to_dict_truncation_w :
    (toDict Mabc [Value.strV "x", Value.strV "y"]).map Prod.fst =
      (fieldNames Mabc).take 2 ∧
    (toDict Mabc [Value.strV "x", Value.strV "y"]).map Prod.snd =
      [Value.strV "x", Value.strV "y"].take Mabc.fields.length ∧
    (toDict Mabc [Value.strV "x", Value.strV "y"]).length =
      min Mabc.fields.length 2 ∧
    (toDict Mab [Value.strV "x", Value.strV "y", Value.strV "z"]).map Prod.fst =
      fieldNames Mab := by
  obtain ⟨h1, h2, h3, _, _⟩ := to_dict_truncation Mabc [Value.strV "x", Value.strV "y"]
  obtain ⟨_, _, _, h4, _⟩ := to_dict_truncation Mab [Value.strV "x", Value.strV "y", Value.strV "z"]
  exact ⟨h1, h2, h3, h4 (by decide)⟩

/-- Claim C1 counterexample: with declared fields a, b and supplied keys
a, c, d the supplied set is NOT a strict superset (b is absent), so the claim
requires the missing-fields error naming b; the code instead branches on the
key count and raises the extra-fields error naming c, d. -/
theorem insert_extra_claim_cex :
    insert Mab Kacd = Except.error (InsertErr.extraFields ["c", "d"]) ∧
    ("b" ∈ fieldNames Mab ∧ "b" ∉ Kacd.map Prod.fst) ∧
    insert Mab Kacd ≠ Except.error (InsertErr.missingFields ["b"]) := by
  refine ⟨rfl, by decide, ?_⟩
  intro hcontra
  rw [show insert Mab Kacd = Except.error (InsertErr.extraFields ["c", "d"]) from rfl]
    at hcontra
  simp at hcontra

/-- Claim C1 (amended): when the supplied key set differs from the declared
field set, insert fails before issuing any SQL; the extra-fields error is
raised when the supplied mapping has more entries than the field directory
(not when it is a strict superset), naming exactly the supplied keys outside
the field set, and otherwise the missing-fields error names exactly the
declared fields outside the supplied keys. -/
theorem insert_field_check (m : Model) (kwargs : List (String × Value))
    (hne : ¬ ∀ x, x ∈ kwargs.map Prod.fst ↔ x ∈ fieldNames m) :
    insertIssued m kwargs = [] ∧
    (kwargs.length > m.fields.length →
      ∃ xs, insert m kwargs = Except.error (InsertErr.extraFields xs) ∧
        ∀ x, x ∈ xs ↔ x ∈ kwargs.map Prod.fst ∧ x ∉ fieldNames m) ∧
    (¬ kwargs.length > m.fields.length →
      ∃ xs, insert m kwargs = Except.error (InsertErr.missingFields xs) ∧
        ∀ x, x ∈ xs ↔ x ∈ fieldNames m ∧ x ∉ kwargs.map Prod.fst) := by
  have hss : sameKeySet (kwargs.map Prod.fst) (fieldNames m) = false := by
    rw [← Bool.not_eq_true]
    intro htrue
    exact hne ((sameKeySet_iff _ _).mp htrue)
  refine ⟨?_, ?_, ?_⟩
  · by_cases hlen : kwargs.length > m.fields.length <;>
      simp [insertIssued, insert, hss, hlen]
  · intro hlen
    refine ⟨(kwargs.map Prod.fst).filter (fun x => !((fieldNames m).contains x)), ?_, ?_⟩
    · simp [insert, hss, hlen]
    · intro x
      simp [List.mem_filter, List.contains, List.elem_iff]
  · intro hlen
    refine ⟨(fieldNames m).filter (fun x => !((kwargs.map Prod.fst).contains x)), ?_, ?_⟩
    · simp [insert, hss, hlen]
    · intro x
      simp [List.mem_filter, List.contains, List.elem_iff]

/-- Witness for insert_field_check at the concrete fixture Mab, Kacd. -/
theorem insert_field_check_w :
    insertIssued Mab Kacd = [] ∧
    (Kacd.length > Mab.fields.length →
      ∃ xs, insert Mab Kacd = Except.error (InsertErr.extraFields xs) ∧
        ∀ x, x ∈ xs ↔ x ∈ Kacd.map Prod.fst ∧ x ∉ fieldNames Mab) ∧
    (¬ Kacd.length > Mab.fields.length →
      ∃ xs, insert Mab Kacd = Except.error (InsertErr.missingFields xs) ∧
        ∀ x, x ∈ xs ↔ x ∈ fieldNames Mab ∧ x ∉ Kacd.map Prod.fst) :=
  insert_field_check Mab Kacd
    (fun hAll => absurd ((hAll "c").mp (by decide)) (by decide))

/-- Claim C5: when the supplied key set equals the declared field set, insert
compiles exactly the spec's INSERT template: the column list and the value
list both iterate the caller-supplied mapping order (hence stay
index-aligned and have equal length) and every value is rendered as a
double-quoted string literal. -/
theorem insert_sql_text (m : Model) (kwargs : List (String × Value))
    (h : ∀ x, x ∈ kwargs.map Prod.fst ↔ x ∈ fieldNames m) :
    insert m kwargs =
      Except.ok (specInsertText m.table_name (kwargs.map Prod.fst)
        (kwargs.map (fun kv => pyStr kv.2))) ∧
    insertIssued m kwargs =
      [specInsertText m.table_name (kwargs.map Prod.fst)
        (kwargs.map (fun kv => pyStr kv.2))] ∧
    (kwargs.map Prod.fst).length = (kwargs.map (fun kv => pyStr kv.2)).length := by
  have hss : sameKeySet (kwargs.map Prod.fst) (fieldNames m) = true :=
    (sameKeySet_iff _ _).mpr h
  have hq : insertQuery m kwargs =
      specInsertText m.table_name (kwargs.map Prod.fst)
        (kwargs.map (fun kv => pyStr kv.2)) := by
    unfold insertQuery specInsertText
    rw [List.map_map]
    rfl
  refine ⟨?_, ?_, by simp⟩
  · simp [insert, hss, hq]
  · simp [insertIssued, insert, hss, hq]

/-- Witness for insert_sql_text: Kba supplies Mpk's fields in the order b, a,
and the compiled column and value lists follow that caller order. -/
theorem insert_sql_text_w :
    insert Mpk Kba =
      Except.ok (specInsertText Mpk.table_name (Kba.map Prod.fst)
        (Kba.map (fun kv => pyStr kv.2))) ∧
    insertIssued Mpk Kba =
      [specInsertText Mpk.table_name (Kba.map Prod.fst)
        (Kba.map (fun kv => pyStr kv.2))] ∧
    (Kba.map Prod.fst).length = (Kba.map (fun kv => pyStr kv.2)).length :=
  insert_sql_text Mpk Kba (by
    intro x
    simp only [Kba, Mpk, fieldNames, List.map_cons, List.map_nil, List.mem_cons,
      List.not_mem_nil, or_false]
    tauto)

/-- Claim C8: get_by_column rejects a column outside the field directory with
the unknown-column error while issuing no SQL at all; for a declared column
it issues exactly the spec's SELECT template, appending the condition
fragment verbatim, and returns the decoded rows. -/
theorem get_by_column_guard (m : Model) (e : Engine) (c cond : String) :
    (c ∉ fieldNames m →
      get_by_column m e c cond =
        (Except.error ("Column with name \x27" ++ c ++ "\x27 does not exist"),
          true, [])) ∧
    (c ∈ fieldNames m →
      (get_by_column m e c cond).2.2 = [specSelectByColumnText m.table_name c cond] ∧
      ∀ rows, e (specSelectByColumnText m.table_name c cond) = Except.ok rows →
        (get_by_column m e c cond).1 = Except.ok (rows.map (toDict m))) := by
  have hq : getByColumnQuery m c cond = specSelectByColumnText m.table_name c cond := rfl
  constructor
  · intro hc
    simp [get_by_column, hc]
  · intro hc
    constructor
    · unfold get_by_column
      rw [if_pos hc]
      cases he : e (getByColumnQuery m c cond) <;> simp [hq]
    · intro rows hrows
      unfold get_by_column
      rw [if_pos hc, hq, hrows]

/-- Witness for get_by_column_guard: the undeclared column zzz is rejected
without touching the engine, and the declared column a issues the template
query and decodes the returned row. -/
theorem get_by_column_guard_w :
    get_by_column Mpk condEngine "zzz" "= 1" =
      (Except.error ("Column with name \x27zzz\x27 does not exist"), true, []) ∧
    (get_by_column Mpk condEngine "a" "= 1").1 =
      Except.ok [[("a", Value.intV 1), ("b", Value.strV "x")]] := by
  constructor
  · exact (get_by_column_guard Mpk condEngine "zzz" "= 1").1 (by decide)
  · have h := ((get_by_column_guard Mpk condEngine "a" "= 1").2 (by decide)).2
      [[Value.intV 1, Value.strV "x"]] rfl
    exact h.trans rfl

/-- Claim C9: get is the in-memory filter of get_all: whenever the full scan
yields a record list, get returns exactly its predicate-true subsequence in
the same order, and over an empty table both return the empty sequence
without error. -/
theorem get_filters_get_all (m : Model) (e : Engine) (p : Record → Bool) :
    (∀ rs, (get_all m e).1 = Except.ok rs → get m e p = Except.ok (rs.filter p)) ∧
    (e (selectAllQuery m) = Except.ok [] →
      (get_all m e).1 = Except.ok [] ∧ get m e p = Except.ok []) := by
  constructor
  · intro rs h
    unfold get
    rw [h]
  · intro h
    have h1 : (get_all m e).1 = Except.ok [] := by
      unfold get_all
      rw [h]
      rfl
    refine ⟨h1, ?_⟩
    unfold get
    rw [h1]
    rfl

/-- Witness for get_filters_get_all over the empty-table engine. -/
theorem get_filters_get_all_w :
    (get_all Mpk emptyEngine).1 = Except.ok [] ∧
    get Mpk emptyEngine pTrue = Except.ok [] :=
  (get_filters_get_all Mpk emptyEngine pTrue).2 rfl

/-- Claim C6: over a table whose records hold a stored value for every
declared field (so Python's record[column] lookups succeed), update compiles
exactly one UPDATE statement per record matched by the predicate — the loop
completes and issues as many statements as there are matches — and each
statement follows the spec template: the WHERE clause conjoins
column=='value' over every declared field with the record's stored rendered
values, and the SET clause lists every field in declaration order, writing
the caller-supplied replacement when the field name is a values key and the
record's current value otherwise; consequently the stored row keeps every
field not named in values at its prior value. -/
theorem update_per_record_frame (m : Model) (e : Engine) (p : Record → Bool)
    (kwargs : List (String × Value)) (tbl : List Record)
    (h : (get_all m e).1 = Except.ok tbl)
    (hall : ∀ r ∈ tbl, hasAllFields m r = true) :
    (∃ qs, (tbl.filter p).mapM (updateQuery m kwargs) = some qs ∧
      update m e p kwargs = Except.ok (qs, true) ∧
      qs.length = (tbl.filter p).length) ∧
    (∀ r : Record, ∀ ss ps, setPairs m kwargs r = some ss → wherePairs m r = some ps →
      updateQuery m kwargs r = some (specUpdateText m.table_name ss ps) ∧
      ss.map Prod.fst = fieldNames m ∧
      (∀ cv ∈ ss, (setValue kwargs r cv.1).map pyStr = some cv.2) ∧
      ps.map Prod.fst = fieldNames m ∧
      (∀ cv ∈ ps, (recVal r cv.1).map pyStr = some cv.2)) ∧
    (∀ r : Record, ∀ c ∈ fieldNames m,
      (lookupKw kwargs c = none → recVal (updatedRecord m kwargs r) c = recVal r c) ∧
      (∀ v, lookupKw kwargs c = some v →
        recVal (updatedRecord m kwargs r) c = some v)) := by
  refine ⟨?_, ?_, ?_⟩
  · have hsome : ((tbl.filter p).mapM (updateQuery m kwargs)).isSome = true := by
      refine mapM_isSome _ _ ?_
      intro r hr
      exact updateQuery_isSome m kwargs r (hall r (List.mem_of_mem_filter hr))
    obtain ⟨qs, hqs⟩ := Option.isSome_iff_exists.mp hsome
    refine ⟨qs, hqs, ?_, length_of_mapM _ _ _ hqs⟩
    unfold update get
    rw [h]
    show Except.ok (compileLoop (updateQuery m kwargs) (tbl.filter p)) =
      Except.ok (qs, true)
    rw [compileLoop_eq_mapM _ _ _ hqs]
  · intro r ss ps hss hps
    obtain ⟨hs1, hs2⟩ := pairs_mapM_spec (setValue kwargs r) m.fields ss hss
    obtain ⟨hp1, hp2⟩ := pairs_mapM_spec (recVal r) m.fields ps hps
    refine ⟨?_, hs1, hs2, hp1, hp2⟩
    unfold updateQuery
    rw [whereJoin_eq, hps, setJoin_eq, hss]
    rfl
  · intro r c hc
    constructor
    · intro hnone
      rw [recVal_updatedRecord m kwargs r c hc]
      unfold setValue
      rw [hnone]
    · intro v hsome
      rw [recVal_updatedRecord m kwargs r c hc]
      unfold setValue
      rw [hsome]

/-- Witness for update_per_record_frame: two matching full-arity rows of Mpk
updated with a replacement value for b only. -/
theorem update_per_record_frame_w :
    (∃ qs, ([rXa, rXa].filter pTrue).mapM (updateQuery Mpk Kb) = some qs ∧
      update Mpk twoRowEngine pTrue Kb = Except.ok (qs, true) ∧
      qs.length = ([rXa, rXa].filter pTrue).length) ∧
    (∀ r : Record, ∀ ss ps, setPairs Mpk Kb r = some ss → wherePairs Mpk r = some ps →
      updateQuery Mpk Kb r = some (specUpdateText Mpk.table_name ss ps) ∧
      ss.map Prod.fst = fieldNames Mpk ∧
      (∀ cv ∈ ss, (setValue Kb r cv.1).map pyStr = some cv.2) ∧
      ps.map Prod.fst = fieldNames Mpk ∧
      (∀ cv ∈ ps, (recVal r cv.1).map pyStr = some cv.2)) ∧
    (∀ r : Record, ∀ c ∈ fieldNames Mpk,
      (lookupKw Kb c = none → recVal (updatedRecord Mpk Kb r) c = recVal r c) ∧
      (∀ v, lookupKw Kb c = some v →
        recVal (updatedRecord Mpk Kb r) c = some v)) :=
  update_per_record_frame Mpk twoRowEngine pTrue Kb [rXa, rXa] rfl (by decide)

/-- Claim C7: over a table whose records hold a stored value for every
declared field (so Python's record[column] lookups succeed), delete issues
exactly one DELETE statement per record matched by the predicate — the loop
completes with as many statements as matches — each following the spec
template whose WHERE clause conjoins column=='value' over every declared
field with the record's stored rendered values; because the statements match
by full-row equality, two field-wise identical stored rows are both removed
whenever the predicate matches one of them. -/
theorem delete_full_row (m : Model) (e : Engine) (p : Record → Bool) (tbl : List Record)
    (h : (get_all m e).1 = Except.ok tbl)
    (hall : ∀ r ∈ tbl, hasAllFields m r = true) :
    (∃ qs, (tbl.filter p).mapM (deleteQuery m) = some qs ∧
      delete m e p = Except.ok (qs, true) ∧
      qs.length = (tbl.filter p).length) ∧
    (∀ r : Record, ∀ ps, wherePairs m r = some ps →
      deleteQuery m r = some (specDeleteText m.table_name ps) ∧
      ps.map Prod.fst = fieldNames m ∧
      (∀ cv ∈ ps, (recVal r cv.1).map pyStr = some cv.2)) ∧
    (∀ r1 r2 : Record, r1 ∈ tbl → r2 ∈ tbl → rowEq m r1 r2 = true → p r1 = true →
      r1 ∉ runDeletes m tbl (tbl.filter p) ∧
      r2 ∉ runDeletes m tbl (tbl.filter p)) := by
  refine ⟨?_, ?_, ?_⟩
  · have hsome : ((tbl.filter p).mapM (deleteQuery m)).isSome = true := by
      refine mapM_isSome _ _ ?_
      intro r hr
      exact deleteQuery_isSome m r (hall r (List.mem_of_mem_filter hr))
    obtain ⟨qs, hqs⟩ := Option.isSome_iff_exists.mp hsome
    refine ⟨qs, hqs, ?_, length_of_mapM _ _ _ hqs⟩
    unfold delete get
    rw [h]
    show Except.ok (compileLoop (deleteQuery m) (tbl.filter p)) = Except.ok (qs, true)
    rw [compileLoop_eq_mapM _ _ _ hqs]
  · intro r ps hps
    obtain ⟨hp1, hp2⟩ := pairs_mapM_spec (recVal r) m.fields ps hps
    refine ⟨?_, hp1, hp2⟩
    unfold deleteQuery
    rw [whereJoin_eq, hps]
    rfl
  · intro r1 r2 h1 h2 heq hp
    have hmem : r1 ∈ tbl.filter p := List.mem_filter.mpr ⟨h1, hp⟩
    exact ⟨not_mem_runDeletes m r1 r1 (rowEq_refl m r1) (tbl.filter p) tbl hmem,
      not_mem_runDeletes m r2 r1 (rowEq_symm m r1 r2 heq) (tbl.filter p) tbl hmem⟩

/-- Witness for delete_full_row: the table holds two field-wise identical
full-arity rows and the predicate matches them; two statements are issued
and both rows are gone after the deletes. -/
theorem delete_full_row_w :
    (∃ qs, ([rXa, rXa].filter pTrue).mapM (deleteQuery Mpk) = some qs ∧
      delete Mpk twoRowEngine pTrue = Except.ok (qs, true) ∧
      qs.length = ([rXa, rXa].filter pTrue).length) ∧
    (∀ r : Record, ∀ ps, wherePairs Mpk r = some ps →
      deleteQuery Mpk r = some (specDeleteText Mpk.table_name ps) ∧
      ps.map Prod.fst = fieldNames Mpk ∧
      (∀ cv ∈ ps, (recVal r cv.1).map pyStr = some cv.2)) ∧
    (∀ r1 r2 : Record, r1 ∈ [rXa, rXa] → r2 ∈ [rXa, rXa] →
      rowEq Mpk r1 r2 = true → pTrue r1 = true →
      r1 ∉ runDeletes Mpk [rXa, rXa] ([rXa, rXa].filter pTrue) ∧
      r2 ∉ runDeletes Mpk [rXa, rXa] ([rXa, rXa].filter pTrue)) :=
  delete_full_row Mpk twoRowEngine pTrue [rXa, rXa] rfl (by decide)

end SqliteOrm
